import Mathlib

/-!
Verification of the SOCKS5 proxy core (crates/client/src/socks5.rs).

The Rust code is shallowly embedded: the client TCP stream is an explicit
state value (bytes still to be read from the client, bytes written to the
client so far, and whether our write half has been shut down), and every
async method of the source becomes a function in a state-plus-error monad
over that stream.  Network effects that leave the process (DNS lookup,
the outbound TCP connect together with its timeout, and the bidirectional
relay) are oracle parameters supplied to the handler, so theorems can
quantify over every possible behaviour of the outside world.  Tracing
calls of the source are dropped; they do not touch the protocol state.
-/

deriving instance DecidableEq for Except

namespace Socks5

/-- Version of socks (source: SOCKS_VERSION). -/
def SOCKS_VERSION : Nat := 0x05

/-- Source: RESERVED. -/
def RESERVED : Nat := 0x00

/-- The io::ErrorKind values the socks5 module distinguishes. -/
inductive IoErrorKind
  | UnexpectedEof
  | InvalidInput
  | Unsupported
  | NotConnected
  | BrokenPipe
  | ConnectionReset
  | Other
deriving DecidableEq, Repr

/-- Source: struct User (username + password, both Strings). -/
structure User where
  username : String
  password : String
deriving BEq, DecidableEq, Repr

/-- Source: enum ResponseCode. -/
inductive ResponseCode
  | Success
  | Failure
  | RuleFailure
  | NetworkUnreachable
  | HostUnreachable
  | ConnectionRefused
  | TtlExpired
  | CommandNotSupported
  | AddrTypeNotSupported
  | Timeout
deriving DecidableEq, Repr

/-- The discriminant values of enum ResponseCode (the wire bytes). -/
def ResponseCode.toNat : ResponseCode → Nat
  | .Success => 0x00
  | .Failure => 0x01
  | .RuleFailure => 0x02
  | .NetworkUnreachable => 0x03
  | .HostUnreachable => 0x04
  | .ConnectionRefused => 0x05
  | .TtlExpired => 0x06
  | .CommandNotSupported => 0x07
  | .AddrTypeNotSupported => 0x08
  | .Timeout => 0x99

/-- Source: enum MerinoError (Io wrapping io::Error, Socks wrapping ResponseCode).
Only the kind of an io::Error is observable in the module, so that is what
the Io payload carries. -/
inductive MerinoError
  | Io (k : IoErrorKind)
  | Socks (c : ResponseCode)
deriving DecidableEq, Repr

/-- Source: impl From of MerinoError for ResponseCode. -/
def ResponseCode.fromMerinoError : MerinoError → ResponseCode
  | .Socks e => e
  | .Io _ => .Failure

/-- Source: enum AddrType. -/
inductive AddrType
  | V4
  | Domain
  | V6
deriving DecidableEq, Repr

/-- Source: AddrType::from (parse byte to address type). -/
def AddrType.fromNat : Nat → Option AddrType
  | 1 => some .V4
  | 3 => some .Domain
  | 4 => some .V6
  | _ => none

/-- The discriminant values of enum AddrType. -/
def AddrType.toNat : AddrType → Nat
  | .V4 => 0x01
  | .Domain => 0x03
  | .V6 => 0x04

/-- Source: enum SockCommand (the misspelling UdpAssosiate is the source's). -/
inductive SockCommand
  | Connect
  | Bind
  | UdpAssosiate
deriving DecidableEq, Repr

/-- Source: SockCommand::from (parse byte to command). -/
def SockCommand.fromNat : Nat → Option SockCommand
  | 1 => some .Connect
  | 2 => some .Bind
  | 3 => some .UdpAssosiate
  | _ => none

/-- The discriminant values of enum SockCommand. -/
def SockCommand.toNat : SockCommand → Nat
  | .Connect => 0x01
  | .Bind => 0x02
  | .UdpAssosiate => 0x03

/-- Source: enum AuthMethods. -/
inductive AuthMethods
  | NoAuth
  | UserPass
  | NoMethods
deriving DecidableEq, Repr

/-- The discriminant values of enum AuthMethods. -/
def AuthMethods.toNat : AuthMethods → Nat
  | .NoAuth => 0x00
  | .UserPass => 0x02
  | .NoMethods => 0xFF

/-- The client TCP stream as the handler sees it: bytes the client will send
(still unread), bytes the server has written back, and whether the server
has shut its write half down (tokio's AsyncWriteExt::shutdown). -/
structure Stream where
  input : List Nat
  output : List Nat
  wShutdown : Bool
deriving DecidableEq, Repr

/-- The monad of one connection handler: state is the client stream, and
any path may fail with a MerinoError (the ? operator of the source).
The stream state at the moment of failure is kept, because the accept
loop still writes an error reply to it. -/
def M (α : Type) : Type := Stream → Except MerinoError α × Stream

instance : Monad M where
  pure := fun a s => (Except.ok a, s)
  bind := fun x f s =>
    match x s with
    | (Except.ok a, s1) => f a s1
    | (Except.error e, s1) => (Except.error e, s1)

/-- Model of read_exact n: consumes exactly n bytes of the client input,
or fails with UnexpectedEof when the stream ends early. -/
def readExact (n : Nat) : M (List Nat) := fun s =>
  if n ≤ s.input.length then
    (Except.ok (s.input.take n), { s with input := s.input.drop n })
  else
    (Except.error (MerinoError.Io IoErrorKind.UnexpectedEof), s)

/-- Model of write_all: appends to the bytes delivered to the client;
writing after the server shut its write half down fails (EPIPE). -/
def writeAll (bs : List Nat) : M Unit := fun s =>
  if s.wShutdown then (Except.error (MerinoError.Io IoErrorKind.BrokenPipe), s)
  else (Except.ok (), { s with output := s.output ++ bs })

/-- Model of AsyncWriteExt::shutdown on the client stream (SOCKClient::shutdown).
Shuts the write half down; reads remain possible. -/
def shutdownStream : M Unit := fun s =>
  (Except.ok (), { s with wShutdown := true })

/-- The ? operator raising a MerinoError. -/
def throwE {α : Type} (e : MerinoError) : M α := fun s => (Except.error e, s)

/-- Is b a UTF-8 continuation byte (0x80..=0xBF)? -/
def isUtf8Cont (b : Nat) : Bool := 0x80 ≤ b && b ≤ 0xBF

/-- One step of Rust's UTF-8 decoder on lead byte b followed by l: either the
decoded scalar with the number of bytes consumed, or none together with the
length of the maximal subpart of an ill-formed sequence (what from_utf8_lossy
replaces with one U+FFFD). -/
def utf8Step (b : Nat) (l : List Nat) : Option Char × Nat :=
  if b ≤ 0x7F then (some (Char.ofNat b), 1)
  else if 0xC2 ≤ b && b ≤ 0xDF then
    match l with
    | b1 :: _ =>
      if isUtf8Cont b1 then
        (some (Char.ofNat ((b - 0xC0) * 0x40 + (b1 - 0x80))), 2)
      else (none, 1)
    | [] => (none, 1)
  else if 0xE0 ≤ b && b ≤ 0xEF then
    let lo1 := if b = 0xE0 then 0xA0 else 0x80
    let hi1 := if b = 0xED then 0x9F else 0xBF
    match l with
    | b1 :: l1 =>
      if lo1 ≤ b1 && b1 ≤ hi1 then
        match l1 with
        | b2 :: _ =>
          if isUtf8Cont b2 then
            (some (Char.ofNat ((b - 0xE0) * 0x1000 + (b1 - 0x80) * 0x40 + (b2 - 0x80))), 3)
          else (none, 2)
        | [] => (none, 2)
      else (none, 1)
    | [] => (none, 1)
  else if 0xF0 ≤ b && b ≤ 0xF4 then
    let lo1 := if b = 0xF0 then 0x90 else 0x80
    let hi1 := if b = 0xF4 then 0x8F else 0xBF
    match l with
    | b1 :: l1 =>
      if lo1 ≤ b1 && b1 ≤ hi1 then
        match l1 with
        | b2 :: l2 =>
          if isUtf8Cont b2 then
            match l2 with
            | b3 :: _ =>
              if isUtf8Cont b3 then
                (some (Char.ofNat
                  ((b - 0xF0) * 0x40000 + (b1 - 0x80) * 0x1000
                    + (b2 - 0x80) * 0x40 + (b3 - 0x80))), 4)
              else (none, 3)
            | [] => (none, 3)
          else (none, 2)
        | [] => (none, 2)
      else (none, 1)
    | [] => (none, 1)
  else (none, 1)

/-- Worker for utf8Units: each unit consumes at least the head byte, so the
list length bounds the number of units and serves as structural fuel. -/
def utf8UnitsGo : Nat → List Nat → List (Option Char)
  | 0, _ => []
  | _, [] => []
  | fuel + 1, b :: l =>
    (utf8Step b l).1 :: utf8UnitsGo fuel (l.drop ((utf8Step b l).2 - 1))

/-- Decode a byte list into UTF-8 units left to right; none marks one
ill-formed maximal subpart. -/
def utf8Units (l : List Nat) : List (Option Char) :=
  utf8UnitsGo l.length l

/-- Model of std::str::from_utf8: succeeds exactly when every unit decodes. -/
def from_utf8 (l : List Nat) : Option String :=
  if (utf8Units l).all Option.isSome then
    some (String.mk ((utf8Units l).filterMap id))
  else none

/-- Model of String::from_utf8_lossy: every ill-formed maximal subpart
becomes U+FFFD. -/
def from_utf8_lossy (l : List Nat) : String :=
  String.mk ((utf8Units l).map (fun o => o.getD (Char.ofNat 0xFFFD)))

/-- Source: struct SocksReply (the fixed ten byte reply frame). -/
structure SocksReply where
  buf : List Nat
deriving DecidableEq, Repr

/-- Source: SocksReply::new — VER, REP, RSV, ATYP=1, BND.ADDR 0.0.0.0, BND.PORT 0. -/
def SocksReply.new (status : ResponseCode) : SocksReply :=
  { buf := [SOCKS_VERSION, status.toNat, RESERVED, 1, 0, 0, 0, 0, 0, 0] }

/-- Source: SocksReply::send — write_all of the buffer on the stream. -/
def SocksReply.send (r : SocksReply) : M Unit :=
  writeAll r.buf

/-- An IP address as produced by the resolver or literal parsing. -/
inductive IpAddr
  | v4 (a b c d : Nat)
  | v6 (a b c d e f g h : Nat)
deriving DecidableEq, Repr

/-- A candidate endpoint (SocketAddr of the source). -/
structure SocketAddr where
  ip : IpAddr
  port : Nat
deriving DecidableEq, Repr

/-- Result of tokio::io::copy_bidirectional between client and target:
tBytes are the bytes the target sent that get delivered to the client,
result is Ok (client-to-target, target-to-client byte counts) or an
io error kind. -/
structure CopyBidirectional where
  tBytes : List Nat
  result : Except IoErrorKind (Nat × Nat)

/-- Outcome of the timeout-bounded outbound TcpStream::connect: the tokio
timeout elapsed (the in-flight connect is dropped and yields nothing), the
connect itself failed with an io error, or it succeeded and the relay then
behaved as described. -/
inductive ConnectResult
  | timedOut
  | failed (k : IoErrorKind)
  | connected (c : CopyBidirectional)

/-- Oracle for everything that leaves the process: the DNS resolver
(TokioAsyncResolver::lookup_ip, errors already converted to io kinds) and
the timeout-bounded outbound connect plus relay. -/
structure NetModel where
  lookup : String → Except IoErrorKind (List IpAddr)
  connect : List SocketAddr → ConnectResult

/-- Source: addr_to_socket — convert an address and AddrType to SocketAddrs.
V4/V6 are literal and deterministic; Domain first requires the raw bytes to
be valid UTF-8 (std::str::from_utf8, InvalidInput on failure) and only then
consults the resolver. -/
def addr_to_socket (addr_type : AddrType) (addr : List Nat) (port : Nat)
    (resolver : String → Except IoErrorKind (List IpAddr)) :
    Except IoErrorKind (List SocketAddr) :=
  match addr_type with
  | .V6 =>
    let w := fun (x : Nat) => (addr.getD (x * 2) 0) <<< 8 ||| addr.getD (x * 2 + 1) 0
    Except.ok [{ ip := IpAddr.v6 (w 0) (w 1) (w 2) (w 3) (w 4) (w 5) (w 6) (w 7),
                 port := port }]
  | .V4 =>
    Except.ok [{ ip := IpAddr.v4 (addr.getD 0 0) (addr.getD 1 0)
                                 (addr.getD 2 0) (addr.getD 3 0),
                 port := port }]
  | .Domain =>
    match from_utf8 addr with
    | none => Except.error IoErrorKind.InvalidInput
    | some s => (resolver s).map (List.map (fun ip => { ip := ip, port := port }))

/-- Source: struct SOCKSReq. addr holds exactly the raw address bytes
(for Domain, without the length prefix, as from_stream stores it). -/
structure SOCKSReq where
  version : Nat
  command : SockCommand
  addr_type : AddrType
  addr : List Nat
  port : Nat
deriving DecidableEq, Repr

/-- Source: SOCKSReq::from_stream. Reads the 4-byte header; a version other
than 5 only shuts the write half down (the source does not return there);
unknown command or address type bytes shut down and fail with the matching
code; then the address (length-prefixed for Domain) and the big-endian port
are read. -/
def SOCKSReq.from_stream : M SOCKSReq :=
  readExact 4 >>= fun packet =>
  (if packet.headD 0 ≠ SOCKS_VERSION then shutdownStream else pure ()) >>= fun _ =>
  match SockCommand.fromNat (packet.getD 1 0) with
  | none =>
    shutdownStream >>= fun _ =>
    throwE (.Socks .CommandNotSupported)
  | some command =>
    match AddrType.fromNat (packet.getD 3 0) with
    | none =>
      shutdownStream >>= fun _ =>
      throwE (.Socks .AddrTypeNotSupported)
    | some addr_type =>
      (match addr_type with
       | .Domain =>
         readExact 1 >>= fun dlen =>
         readExact (dlen.headD 0)
       | .V4 => readExact 4
       | .V6 => readExact 16) >>= fun addr =>
      readExact 2 >>= fun portBytes =>
      pure { version := packet.headD 0, command := command,
             addr_type := addr_type, addr := addr,
             port := (portBytes.headD 0) <<< 8 ||| (portBytes.getD 1 0) }

/-- Source: SOCKClient::authed — membership of the submitted pair in the
configured credential list. -/
def SOCKClient.authed (authed_users : List User) (user : User) : Bool :=
  authed_users.contains user

/-- Source: SOCKClient::get_avalible_methods — read auth_nmethods single
bytes and keep, in client order, those the server configuration contains. -/
def SOCKClient.get_avalible_methods (auth_methods : List Nat) : Nat → M (List Nat)
  | 0 => pure []
  | n + 1 =>
    readExact 1 >>= fun method =>
    SOCKClient.get_avalible_methods auth_methods n >>= fun rest =>
    pure (if auth_methods.contains (method.headD 0) then method ++ rest else rest)

/-- Source: SOCKClient::auth. Prefers username/password whenever available;
on a credential mismatch it writes the failure status and shuts down but
still returns Ok; with no common method it writes the NoMethods sentinel,
shuts down and fails with Socks Failure. -/
def SOCKClient.auth (authed_users : List User) (auth_methods : List Nat)
    (auth_nmethods : Nat) : M Unit :=
  SOCKClient.get_avalible_methods auth_methods auth_nmethods >>= fun methods =>
  if methods.contains AuthMethods.UserPass.toNat then
    writeAll [SOCKS_VERSION, AuthMethods.UserPass.toNat] >>= fun _ =>
    readExact 2 >>= fun header =>
    readExact (header.getD 1 0) >>= fun username =>
    readExact 1 >>= fun pass_len =>
    readExact (pass_len.headD 0) >>= fun password =>
    let user : User := { username := from_utf8_lossy username,
                         password := from_utf8_lossy password }
    if SOCKClient.authed authed_users user then
      writeAll [1, ResponseCode.Success.toNat]
    else
      writeAll [1, ResponseCode.Failure.toNat] >>= fun _ =>
      shutdownStream
  else if methods.contains AuthMethods.NoAuth.toNat then
    writeAll [SOCKS_VERSION, AuthMethods.NoAuth.toNat]
  else
    writeAll [SOCKS_VERSION, AuthMethods.NoMethods.toNat] >>= fun _ =>
    shutdownStream >>= fun _ =>
    throwE (.Socks .Failure)

/-- Source: SOCKClient::handle_client. Parses the request; Connect resolves
the address, attempts the timeout-bounded outbound connect (elapsed timeout
maps to Socks ConnectionRefused, a connect io error propagates as Io), sends
the success reply, then relays; a NotConnected relay error counts as a clean
end.  Bind and UdpAssosiate fail with an io error of kind Unsupported. -/
def SOCKClient.handle_client (net : NetModel) : M Nat :=
  SOCKSReq.from_stream >>= fun req =>
  match req.command with
  | .Connect =>
    match addr_to_socket req.addr_type req.addr req.port net.lookup with
    | .error e => throwE (.Io e)
    | .ok sock_addr =>
      match net.connect sock_addr with
      | .timedOut => throwE (.Socks .ConnectionRefused)
      | .failed k => throwE (.Io k)
      | .connected c =>
        (SocksReply.new ResponseCode.Success).send >>= fun _ =>
        writeAll c.tBytes >>= fun _ =>
        match c.result with
        | .error e =>
          if e = IoErrorKind.NotConnected then pure 0 else throwE (.Io e)
        | .ok r => pure r.2
  | .Bind => throwE (.Io .Unsupported)
  | .UdpAssosiate => throwE (.Io .Unsupported)

/-- Source: SOCKClient::init. Reads the greeting header; on version 5 runs
auth then handle_client; otherwise only shuts the stream down. -/
def SOCKClient.init (authed_users : List User) (auth_methods : List Nat)
    (net : NetModel) : M Unit :=
  readExact 2 >>= fun header =>
  if header.headD 0 = SOCKS_VERSION then
    SOCKClient.auth authed_users auth_methods (header.getD 1 0) >>= fun _ =>
    SOCKClient.handle_client net >>= fun _ =>
    pure ()
  else
    shutdownStream

/-- The body of the task Merino::serve spawns per accepted connection:
run init; on error send the mapped reply (failures to send are swallowed)
and shut the stream down. -/
def handle_connection (authed_users : List User) (auth_methods : List Nat)
    (net : NetModel) (s : Stream) : Stream :=
  match SOCKClient.init authed_users auth_methods net s with
  | (.ok _, s1) => s1
  | (.error e, s1) =>
    let s2 :=
      match (SocksReply.new (ResponseCode.fromMerinoError e)).send s1 with
      | (_, s2) => s2
    { s2 with wShutdown := true }

/-- Source: Merino::serve — while let Ok((stream, addr)) = accept: the loop
handles accepted connections and exits on the first accept error. -/
def Merino.serve (authed_users : List User) (auth_methods : List Nat)
    (net : NetModel) : List (Except IoErrorKind Stream) → List Stream
  | [] => []
  | .error _ :: _ => []
  | .ok s :: rest =>
    handle_connection authed_users auth_methods net s ::
      Merino.serve authed_users auth_methods net rest

/-- Modelled from the spec: the repository contains no serializer for request
frames (its clients produce them on the wire); the layout is fixed by spec
§4.1 — version, command, reserved 0, address type, then the address (IPv4 and
IPv6 raw, domain with a one-byte length prefix) and the big-endian port. -/
def encodeRequest (req : SOCKSReq) : List Nat :=
  req.version :: req.command.toNat :: RESERVED :: req.addr_type.toNat ::
    ((match req.addr_type with
      | .Domain => req.addr.length :: req.addr
      | .V4 => req.addr
      | .V6 => req.addr) ++ [req.port / 256, req.port % 256])

/-- A network oracle whose outbound connect always times out (and whose
resolver always fails); used for scenarios that never reach a target. -/
def netNone : NetModel :=
  { lookup := fun _ => Except.error IoErrorKind.Other,
    connect := fun _ => ConnectResult.timedOut }

/-- A network oracle whose outbound connect succeeds and whose relay delivers
two target bytes to the client, then closes cleanly. -/
def netRelay : NetModel :=
  { lookup := fun _ => Except.error IoErrorKind.Other,
    connect := fun _ =>
      ConnectResult.connected { tBytes := [7, 7], result := Except.ok (3, 2) } }

/-- Output of a handler action only ever grows (used to reason about what
a stage has already written, whatever happens later). -/
def OutExtends {α : Type} (m : M α) : Prop :=
  ∀ s : Stream, ∃ t, ((m s).2).output = s.output ++ t

/-- A handler action that writes nothing at all. -/
def OutPreserves {α : Type} (m : M α) : Prop :=
  ∀ s : Stream, ((m s).2).output = s.output

theorem bind_apply {α β : Type} (x : M α) (f : α → M β) (s : Stream) :
    (x >>= f) s =
      match x s with
      | (Except.ok a, s1) => f a s1
      | (Except.error e, s1) => (Except.error e, s1) := rfl

theorem pure_apply {α : Type} (a : α) (s : Stream) :
    (pure a : M α) s = (Except.ok a, s) := rfl

theorem readExact_len {n : Nat} {l : List Nat} (t out : List Nat) (sd : Bool)
    (h : l.length = n) :
    readExact n ⟨l ++ t, out, sd⟩ = (Except.ok l, ⟨t, out, sd⟩) := by
  have hle : n ≤ (l ++ t).length := by
    simp [List.length_append]
    omega
  simp only [readExact, if_pos hle]
  rw [List.take_left' h, List.drop_left' h]

theorem readExact_one (a : Nat) (t out : List Nat) (sd : Bool) :
    readExact 1 ⟨a :: t, out, sd⟩ = (Except.ok [a], ⟨t, out, sd⟩) :=
  readExact_len (l := [a]) t out sd rfl

theorem readExact_two (a b : Nat) (t out : List Nat) (sd : Bool) :
    readExact 2 ⟨a :: b :: t, out, sd⟩ = (Except.ok [a, b], ⟨t, out, sd⟩) :=
  readExact_len (l := [a, b]) t out sd rfl

theorem readExact_four (a b c d : Nat) (t out : List Nat) (sd : Bool) :
    readExact 4 ⟨a :: b :: c :: d :: t, out, sd⟩ =
      (Except.ok [a, b, c, d], ⟨t, out, sd⟩) :=
  readExact_len (l := [a, b, c, d]) t out sd rfl

theorem writeAll_open (bs : List Nat) (inp out : List Nat) :
    writeAll bs ⟨inp, out, false⟩ = (Except.ok (), ⟨inp, out ++ bs, false⟩) := by
  simp [writeAll]

theorem port_merge (p : Nat) : (p / 256) <<< 8 ||| p % 256 = p := by
  have hlt : p % 256 < 2 ^ 8 := by
    have := Nat.mod_lt p (y := 256) (by omega)
    omega
  apply Nat.eq_of_testBit_eq
  intro j
  rw [Nat.testBit_or, Nat.testBit_shiftLeft]
  have hmain := Nat.testBit_mul_pow_two_add (p / 256) hlt j
  have hp : 2 ^ 8 * (p / 256) + p % 256 = p := by
    have := Nat.div_add_mod p 256
    omega
  rw [hp] at hmain
  rw [hmain]
  by_cases hj : j < 8
  · have h8 : ¬ 8 ≤ j := by omega
    simp [hj, h8]
  · have h8 : 8 ≤ j := by omega
    have hbit : (p % 256).testBit j = false := by
      apply Nat.testBit_lt_two_pow
      calc p % 256 < 2 ^ 8 := hlt
        _ ≤ 2 ^ j := Nat.pow_le_pow_right (by omega) h8
    simp [hj, h8, hbit]

theorem sockCommand_fromNat_toNat (c : SockCommand) :
    SockCommand.fromNat c.toNat = some c := by
  cases c <;> rfl

theorem addrType_fromNat_toNat (a : AddrType) :
    AddrType.fromNat a.toNat = some a := by
  cases a <;> rfl

theorem outExtends_pure {α : Type} (a : α) : OutExtends (pure a : M α) :=
  fun _ => ⟨[], by simp [pure_apply]⟩

theorem outExtends_throwE {α : Type} (e : MerinoError) :
    OutExtends (throwE e : M α) :=
  fun _ => ⟨[], by simp [throwE]⟩

theorem outExtends_readExact (n : Nat) : OutExtends (readExact n) := by
  intro s
  refine ⟨[], ?_⟩
  simp only [readExact]
  split <;> simp

theorem outExtends_writeAll (bs : List Nat) : OutExtends (writeAll bs) := by
  intro s
  simp only [writeAll]
  split
  · exact ⟨[], by simp⟩
  · exact ⟨bs, by simp⟩

theorem outExtends_shutdownStream : OutExtends shutdownStream :=
  fun _ => ⟨[], by simp [shutdownStream]⟩

theorem outExtends_bind {α β : Type} {x : M α} {f : α → M β}
    (hx : OutExtends x) (hf : ∀ a, OutExtends (f a)) : OutExtends (x >>= f) := by
  intro s
  rcases hx s with ⟨t1, h1⟩
  rw [bind_apply]
  rcases hxs : x s with ⟨r, s1⟩
  rw [hxs] at h1
  simp only at h1
  cases r with
  | ok a =>
    rcases hf a s1 with ⟨t2, h2⟩
    exact ⟨t1 ++ t2, by rw [h2, h1, List.append_assoc]⟩
  | error e => exact ⟨t1, h1⟩

theorem outPreserves_pure {α : Type} (a : α) : OutPreserves (pure a : M α) :=
  fun _ => rfl

theorem outPreserves_throwE {α : Type} (e : MerinoError) :
    OutPreserves (throwE e : M α) :=
  fun _ => rfl

theorem outPreserves_readExact (n : Nat) : OutPreserves (readExact n) := by
  intro s
  simp only [readExact]
  split <;> rfl

theorem outPreserves_shutdownStream : OutPreserves shutdownStream :=
  fun _ => rfl

theorem outPreserves_bind {α β : Type} {x : M α} {f : α → M β}
    (hx : OutPreserves x) (hf : ∀ a, OutPreserves (f a)) :
    OutPreserves (x >>= f) := by
  intro s
  have h1 := hx s
  rw [bind_apply]
  rcases hxs : x s with ⟨r, s1⟩
  rw [hxs] at h1
  cases r with
  | ok a => rw [hf a s1, h1]
  | error e => exact h1

theorem outExtends_ite {α : Type} (c : Prop) [Decidable c] {x y : M α}
    (hx : OutExtends x) (hy : OutExtends y) : OutExtends (if c then x else y) := by
  by_cases h : c
  · simpa [h] using hx
  · simpa [h] using hy

theorem outPreserves_ite {α : Type} (c : Prop) [Decidable c] {x y : M α}
    (hx : OutPreserves x) (hy : OutPreserves y) :
    OutPreserves (if c then x else y) := by
  by_cases h : c
  · simpa [h] using hx
  · simpa [h] using hy

theorem if_shutdown_apply (c : Prop) [Decidable c] (s : Stream) :
    (if c then shutdownStream else pure ()) s =
      (Except.ok (), { s with wShutdown := if c then true else s.wShutdown }) := by
  by_cases h : c <;> simp [h, shutdownStream, pure_apply]

theorem readExact_whole (l : List Nat) (out : List Nat) (sd : Bool) :
    readExact l.length ⟨l, out, sd⟩ = (Except.ok l, ⟨[], out, sd⟩) := by
  simp [readExact]

/-- get_avalible_methods reads exactly the client's offered method bytes and
keeps, in client order, those the server configuration contains. -/
theorem get_avalible_methods_spec (ms : List Nat) (client rest out0 : List Nat)
    (sd : Bool) :
    SOCKClient.get_avalible_methods ms client.length ⟨client ++ rest, out0, sd⟩ =
      (Except.ok (client.filter (fun b => ms.contains b)), ⟨rest, out0, sd⟩) := by
  induction client generalizing rest with
  | nil => rfl
  | cons b t ih =>
    simp only [List.length_cons, SOCKClient.get_avalible_methods, bind_apply,
      List.cons_append, readExact_one, ih, pure_apply, List.filter_cons,
      List.headD_cons]
    split <;> simp_all

/-- SOCKSReq::from_stream never writes to the client. -/
theorem from_stream_outPreserves : OutPreserves SOCKSReq.from_stream := by
  unfold SOCKSReq.from_stream
  apply outPreserves_bind (outPreserves_readExact 4)
  intro packet
  apply outPreserves_bind
  · apply outPreserves_ite
    · exact outPreserves_shutdownStream
    · exact outPreserves_pure ()
  intro _
  cases SockCommand.fromNat (packet.getD 1 0) with
  | none =>
    apply outPreserves_bind outPreserves_shutdownStream
    intro _
    exact outPreserves_throwE _
  | some command =>
    cases AddrType.fromNat (packet.getD 3 0) with
    | none =>
      apply outPreserves_bind outPreserves_shutdownStream
      intro _
      exact outPreserves_throwE _
    | some addr_type =>
      apply outPreserves_bind
      · cases addr_type with
        | V4 => exact outPreserves_readExact 4
        | V6 => exact outPreserves_readExact 16
        | Domain =>
          apply outPreserves_bind (outPreserves_readExact 1)
          intro dlen
          exact outPreserves_readExact _
      intro addr
      apply outPreserves_bind (outPreserves_readExact 2)
      intro portBytes
      exact outPreserves_pure _

/-- An action with growing output, started from a stream whose output is
pre, ends with output pre ++ tail for some tail. -/
theorem outExtends_goal {α : Type} {m : M α} (hm : OutExtends m) (s : Stream)
    (pre : List Nat) (hpre : s.output = pre) :
    ∃ r s2, m s = (r, s2) ∧ ∃ tail, s2.output = pre ++ tail := by
  rcases hm s with ⟨t, ht⟩
  exact ⟨(m s).1, (m s).2, rfl, t, by rw [ht, hpre]⟩

/-- Claim C3: whenever the client greeting offers both no-auth and
username/password and both are in the server's configured method list, the
method-selection reply the server writes is [5, 2] — username/password is
selected, never no-auth. -/
theorem C3_userpass_preferred_over_noauth
    (users : List User) (serverMethods clientMethods rest out0 : List Nat)
    (_hc0 : AuthMethods.NoAuth.toNat ∈ clientMethods)
    (hc2 : AuthMethods.UserPass.toNat ∈ clientMethods)
    (_hs0 : AuthMethods.NoAuth.toNat ∈ serverMethods)
    (hs2 : AuthMethods.UserPass.toNat ∈ serverMethods) :
    ∃ r s2, SOCKClient.auth users serverMethods clientMethods.length
        ⟨clientMethods ++ rest, out0, false⟩ = (r, s2) ∧
      ∃ tail, s2.output = out0 ++ [5, AuthMethods.UserPass.toNat] ++ tail := by
  unfold SOCKClient.auth
  rw [bind_apply, get_avalible_methods_spec]
  dsimp only
  have hmem : (clientMethods.filter
      (fun b => serverMethods.contains b)).contains AuthMethods.UserPass.toNat = true := by
    simp [List.contains]
    exact ⟨hc2, hs2⟩
  rw [if_pos hmem, bind_apply, writeAll_open]
  dsimp only
  apply outExtends_goal ?_ _ _ rfl
  apply outExtends_bind (outExtends_readExact 2)
  intro header
  apply outExtends_bind (outExtends_readExact _)
  intro username
  apply outExtends_bind (outExtends_readExact 1)
  intro pass_len
  apply outExtends_bind (outExtends_readExact _)
  intro password
  dsimp only
  apply outExtends_ite
  · exact outExtends_writeAll _
  · exact outExtends_bind (outExtends_writeAll _) (fun _ => outExtends_shutdownStream)

/-- Witness for C3_userpass_preferred_over_noauth: client offers [0, 2],
server configured with [0, 2]. -/
theorem C3_userpass_preferred_over_noauth_witness :
    ∃ r s2, SOCKClient.auth [] [0, 2] ([0, 2] : List Nat).length
        ⟨[0, 2] ++ [], [], false⟩ = (r, s2) ∧
      ∃ tail, s2.output = [] ++ [5, AuthMethods.UserPass.toNat] ++ tail :=
  C3_userpass_preferred_over_noauth [] [0, 2] [0, 2] [] []
    (by decide) (by decide) (by decide) (by decide)

/-- Claim C5 (code-slip evidence): a request frame with version byte 4
is NOT aborted by SOCKSReq::from_stream — the source shuts the write half
down but falls through, parses command, address type, address and port,
and returns the fully parsed request, which init/handle_client then keep
processing.  The claim says the connection aborts with none of the
remaining fields processed. -/
theorem C5_version_mismatch_parses_anyway :
    SOCKSReq.from_stream ⟨[4, 1, 0, 1, 127, 0, 0, 1, 35, 40], [], false⟩ =
      (Except.ok { version := 4, command := SockCommand.Connect,
                   addr_type := AddrType.V4, addr := [127, 0, 0, 1], port := 9000 },
       ⟨[], [], true⟩) := by decide

/-- Claim C1 (code-slip evidence): with credential set containing only
user/pass and only username/password offered, a client submitting the wrong
pair "bad"/"bad" gets the failure status byte (output [5,2] then [1,1]) and
the write half is shut down — but auth returns Ok, so init proceeds to
handle_client, which reads and processes the ten-byte request frame the
client sent next: the final stream input is empty.  The claim says the
socket closes and no request frame is read afterwards. -/
theorem C1_failed_auth_still_reads_request :
    handle_connection [{ username := "user", password := "pass" }] [2] netNone
        ⟨[5, 1, 2,
          1, 3, 98, 97, 100, 3, 98, 97, 100,
          5, 1, 0, 1, 127, 0, 0, 1, 35, 40], [], false⟩ =
      ⟨[], [5, 2, 1, 1], true⟩ := by decide

/-- Claim C4 counterexample: a Bind request on a no-auth connection is
answered with reply code 1 (general failure — the io Unsupported error maps
there), not the unsupported-command wire code 7 the claim names. -/
theorem C4_bind_reply_is_general_failure :
    (handle_connection [] [0] netNone
        ⟨[5, 1, 0, 5, 2, 0, 1, 127, 0, 0, 1, 0, 80], [], false⟩).output =
      [5, 0, 5, 1, 0, 1, 0, 0, 0, 0, 0, 0] ∧
    (handle_connection [] [0] netNone
        ⟨[5, 1, 0, 5, 2, 0, 1, 127, 0, 0, 1, 0, 80], [], false⟩).output.getD 3 0 ≠
      ResponseCode.CommandNotSupported.toNat := by decide

/-- Claim C4 amended: for every parsed request whose command is Bind or
UdpAssociate, handle_client fails with an io error of kind Unsupported —
independently of the network oracle, so the relay stage is never reached and
zero relay bytes are written (the stream output is unchanged by the request
stage) — and the reply the accept loop then sends carries the general
failure wire code 0x01. -/
theorem C4_unsupported_commands_rejected_before_relay
    (net : NetModel) (s0 s1 : Stream) (req : SOCKSReq)
    (hreq : SOCKSReq.from_stream s0 = (Except.ok req, s1))
    (hcmd : req.command = SockCommand.Bind ∨ req.command = SockCommand.UdpAssosiate) :
    SOCKClient.handle_client net s0 =
      (Except.error (MerinoError.Io IoErrorKind.Unsupported), s1) ∧
    s1.output = s0.output ∧
    (SocksReply.new (ResponseCode.fromMerinoError
        (MerinoError.Io IoErrorKind.Unsupported))).buf =
      [5, 1, 0, 1, 0, 0, 0, 0, 0, 0] := by
  refine ⟨?_, ?_, rfl⟩
  · obtain ⟨v, cmd, aty, ad, pt⟩ := req
    unfold SOCKClient.handle_client
    rw [bind_apply, hreq]
    simp only at hcmd
    rcases hcmd with h | h <;> subst h <;> rfl
  · have h := from_stream_outPreserves s0
    rw [hreq] at h
    exact h

/-- Witness for C4_unsupported_commands_rejected_before_relay at a concrete
Bind request. -/
theorem C4_unsupported_commands_rejected_before_relay_witness :
    SOCKClient.handle_client netNone ⟨[5, 2, 0, 1, 127, 0, 0, 1, 0, 80], [], false⟩ =
      (Except.error (MerinoError.Io IoErrorKind.Unsupported), ⟨[], [], false⟩) ∧
    ([] : List Nat) = [] ∧
    (SocksReply.new (ResponseCode.fromMerinoError
        (MerinoError.Io IoErrorKind.Unsupported))).buf =
      [5, 1, 0, 1, 0, 0, 0, 0, 0, 0] :=
  C4_unsupported_commands_rejected_before_relay netNone
    ⟨[5, 2, 0, 1, 127, 0, 0, 1, 0, 80], [], false⟩ ⟨[], [], false⟩
    { version := 5, command := SockCommand.Bind, addr_type := AddrType.V4,
      addr := [127, 0, 0, 1], port := 80 }
    (by decide) (Or.inl rfl)

/-- Claim C6 counterexample: one non-fatal accept error (a reset connection)
terminates Merino::serve — a connection ready right after the error is never
handled, although the same connection alone would be. -/
theorem C6_accept_error_terminates_loop :
    Merino.serve [] [0] netNone
        [Except.error IoErrorKind.ConnectionReset, Except.ok ⟨[], [], false⟩] = [] ∧
    Merino.serve [] [0] netNone [Except.ok ⟨[], [], false⟩] ≠ [] := by decide

/-- Claim C6 amended: the accept loop handles exactly the connections
accepted before the first accept error, whatever the error is — any accept
error, fatal to the listener or not, ends the loop. -/
theorem C6_serve_stops_at_first_accept_error
    (users : List User) (ms : List Nat) (net : NetModel)
    (streams : List Stream) (e : IoErrorKind)
    (rest : List (Except IoErrorKind Stream)) :
    Merino.serve users ms net (streams.map Except.ok ++ Except.error e :: rest) =
      streams.map (handle_connection users ms net) := by
  induction streams with
  | nil => rfl
  | cons s t ih => simp [Merino.serve, ih]

/-- Claim C7: a Connect request whose timeout-bounded outbound connect
elapses fails with Socks ConnectionRefused (the in-flight connect yields no
target stream), and the reply frame the accept loop sends for that error
carries the connection-refused wire code 0x05. -/
theorem C7_connect_timeout_is_connection_refused
    (net : NetModel) (s0 s1 : Stream) (req : SOCKSReq) (addrs : List SocketAddr)
    (hreq : SOCKSReq.from_stream s0 = (Except.ok req, s1))
    (hcmd : req.command = SockCommand.Connect)
    (hres : addr_to_socket req.addr_type req.addr req.port net.lookup =
      Except.ok addrs)
    (hconn : net.connect addrs = ConnectResult.timedOut) :
    SOCKClient.handle_client net s0 =
      (Except.error (MerinoError.Socks ResponseCode.ConnectionRefused), s1) ∧
    (SocksReply.new (ResponseCode.fromMerinoError
        (MerinoError.Socks ResponseCode.ConnectionRefused))).buf =
      [5, 5, 0, 1, 0, 0, 0, 0, 0, 0] := by
  refine ⟨?_, rfl⟩
  unfold SOCKClient.handle_client
  rw [bind_apply, hreq]
  simp only [hcmd, hres, hconn]
  rfl

/-- Witness for C7_connect_timeout_is_connection_refused at a concrete
Connect request to 127.0.0.1:9000 with a timing-out oracle. -/
theorem C7_connect_timeout_is_connection_refused_witness :
    SOCKClient.handle_client netNone ⟨[5, 1, 0, 1, 127, 0, 0, 1, 35, 40], [], false⟩ =
      (Except.error (MerinoError.Socks ResponseCode.ConnectionRefused),
       ⟨[], [], false⟩) ∧
    (SocksReply.new (ResponseCode.fromMerinoError
        (MerinoError.Socks ResponseCode.ConnectionRefused))).buf =
      [5, 5, 0, 1, 0, 0, 0, 0, 0, 0] :=
  C7_connect_timeout_is_connection_refused netNone
    ⟨[5, 1, 0, 1, 127, 0, 0, 1, 35, 40], [], false⟩ ⟨[], [], false⟩
    { version := 5, command := SockCommand.Connect, addr_type := AddrType.V4,
      addr := [127, 0, 0, 1], port := 9000 }
    [{ ip := IpAddr.v4 127 0 0 1, port := 9000 }]
    (by decide) rfl (by decide) rfl

/-- Claim C2: for every connection whose outbound connect succeeds, the
handler writes exactly the fixed ten-byte success reply
[5,0,0,1,0,0,0,0,0,0] — bound address 0.0.0.0:0 whatever the real outbound
endpoint, since the frame is a constant — and only after it the bytes the
target sent; this holds for every relay outcome. -/
theorem C2_success_reply_precedes_relay
    (net : NetModel) (s0 s1 : Stream) (req : SOCKSReq)
    (addrs : List SocketAddr) (c : CopyBidirectional)
    (hreq : SOCKSReq.from_stream s0 = (Except.ok req, s1))
    (hcmd : req.command = SockCommand.Connect)
    (hres : addr_to_socket req.addr_type req.addr req.port net.lookup =
      Except.ok addrs)
    (hconn : net.connect addrs = ConnectResult.connected c)
    (hsd : s1.wShutdown = false) :
    ∃ r s2, SOCKClient.handle_client net s0 = (r, s2) ∧
      s2.output = s1.output ++ [5, 0, 0, 1, 0, 0, 0, 0, 0, 0] ++ c.tBytes ∧
      (SocksReply.new ResponseCode.Success).buf = [5, 0, 0, 1, 0, 0, 0, 0, 0, 0] := by
  obtain ⟨inp, out, sd⟩ := s1
  simp only at hsd
  subst hsd
  unfold SOCKClient.handle_client
  rw [bind_apply, hreq]
  simp only [hcmd, hres, hconn, bind_apply, SocksReply.send, writeAll_open]
  cases hc : c.result with
  | error e =>
    by_cases he : e = IoErrorKind.NotConnected
    · subst he
      refine ⟨_, _, rfl, ?_, rfl⟩
      simp [pure_apply, SocksReply.new, SOCKS_VERSION, RESERVED,
        ResponseCode.toNat, List.append_assoc]
    · dsimp only
      rw [if_neg he]
      refine ⟨_, _, rfl, ?_, rfl⟩
      simp [throwE, SocksReply.new, SOCKS_VERSION, RESERVED,
        ResponseCode.toNat, List.append_assoc]
  | ok pr =>
    refine ⟨_, _, rfl, ?_, rfl⟩
    simp [pure_apply, SocksReply.new, SOCKS_VERSION, RESERVED,
      ResponseCode.toNat, List.append_assoc]

/-- Witness for C2_success_reply_precedes_relay at a concrete Connect
request whose relay delivers two target bytes. -/
theorem C2_success_reply_precedes_relay_witness :
    ∃ r s2, SOCKClient.handle_client netRelay
        ⟨[5, 1, 0, 1, 127, 0, 0, 1, 35, 40], [], false⟩ = (r, s2) ∧
      s2.output = [] ++ [5, 0, 0, 1, 0, 0, 0, 0, 0, 0] ++ [7, 7] ∧
      (SocksReply.new ResponseCode.Success).buf = [5, 0, 0, 1, 0, 0, 0, 0, 0, 0] :=
  C2_success_reply_precedes_relay netRelay
    ⟨[5, 1, 0, 1, 127, 0, 0, 1, 35, 40], [], false⟩ ⟨[], [], false⟩
    { version := 5, command := SockCommand.Connect, addr_type := AddrType.V4,
      addr := [127, 0, 0, 1], port := 9000 }
    [{ ip := IpAddr.v4 127 0 0 1, port := 9000 }]
    { tBytes := [7, 7], result := Except.ok (3, 2) }
    (by decide) rfl (by decide) rfl rfl

/-- Claim C8 counterexample: a domain-name request whose single address byte
0xFF is not valid UTF-8 is answered with reply code 1 (general failure: the
InvalidInput io error maps there), not the address-type-not-supported wire
code 8 the claim names. -/
theorem C8_invalid_domain_reply_is_general_failure :
    (handle_connection [] [0] netNone
        ⟨[5, 1, 0, 5, 1, 0, 3, 1, 255, 0, 80], [], false⟩).output =
      [5, 0, 5, 1, 0, 1, 0, 0, 0, 0, 0, 0] ∧
    (handle_connection [] [0] netNone
        ⟨[5, 1, 0, 5, 1, 0, 3, 1, 255, 0, 80], [], false⟩).output.getD 3 0 ≠
      ResponseCode.AddrTypeNotSupported.toNat := by decide

/-- Claim C8 amended: for every domain-name address whose bytes are not
valid UTF-8, addr_to_socket fails with an InvalidInput io error for every
resolver — the DNS oracle is never consulted — and that error maps to the
general failure reply code 0x01 on the wire, not AddrTypeNotSupported. -/
theorem C8_invalid_domain_fails_before_lookup (addr : List Nat) (port : Nat)
    (h : from_utf8 addr = none) :
    (∀ r : String → Except IoErrorKind (List IpAddr),
        addr_to_socket AddrType.Domain addr port r =
          Except.error IoErrorKind.InvalidInput) ∧
    ResponseCode.fromMerinoError (MerinoError.Io IoErrorKind.InvalidInput) =
      ResponseCode.Failure ∧
    (SocksReply.new (ResponseCode.fromMerinoError
        (MerinoError.Io IoErrorKind.InvalidInput))).buf =
      [5, 1, 0, 1, 0, 0, 0, 0, 0, 0] := by
  refine ⟨?_, rfl, rfl⟩
  intro r
  simp [addr_to_socket, h]

/-- Claim C9: encoding a request with the spec's wire layout and parsing the
bytes with SOCKSReq::from_stream reproduces the original structure exactly
and consumes exactly the frame, for all three address types and every
command, given the data-model invariants (address length 4 / 16 / below 256
by type, port a u16). -/
theorem C9_codec_round_trip (req : SOCKSReq) (rest out0 : List Nat) (sd : Bool)
    (haddr : match req.addr_type with
      | AddrType.V4 => req.addr.length = 4
      | AddrType.V6 => req.addr.length = 16
      | AddrType.Domain => req.addr.length < 256)
    (hport : req.port < 65536) :
    (SOCKSReq.from_stream ⟨encodeRequest req ++ rest, out0, sd⟩).1 = Except.ok req ∧
    (SOCKSReq.from_stream ⟨encodeRequest req ++ rest, out0, sd⟩).2.input = rest := by
  obtain ⟨v, cmd, aty, ad, pt⟩ := req
  unfold SOCKSReq.from_stream encodeRequest
  cases aty with
  | V4 =>
    simp only at haddr
    simp only [List.cons_append, List.append_assoc, List.nil_append]
    rw [bind_apply, readExact_four]
    dsimp only
    rw [bind_apply, if_shutdown_apply]
    dsimp only
    have h1 : ([v, cmd.toNat, RESERVED, AddrType.V4.toNat] : List Nat).getD 1 0 =
      cmd.toNat := rfl
    have h3 : ([v, cmd.toNat, RESERVED, AddrType.V4.toNat] : List Nat).getD 3 0 =
      AddrType.V4.toNat := rfl
    rw [h1, h3, sockCommand_fromNat_toNat, addrType_fromNat_toNat]
    dsimp only
    rw [bind_apply, readExact_len _ _ _ haddr]
    dsimp only
    rw [bind_apply, readExact_two]
    dsimp only
    have hp : (([pt / 256, pt % 256] : List Nat).headD 0) <<< 8 |||
        ([pt / 256, pt % 256] : List Nat).getD 1 0 = pt := by
      have : (([pt / 256, pt % 256] : List Nat).headD 0) = pt / 256 := rfl
      rw [this]
      have : (([pt / 256, pt % 256] : List Nat).getD 1 0) = pt % 256 := rfl
      rw [this, port_merge]
    rw [hp]
    exact ⟨rfl, rfl⟩
  | V6 =>
    simp only at haddr
    simp only [List.cons_append, List.append_assoc, List.nil_append]
    rw [bind_apply, readExact_four]
    dsimp only
    rw [bind_apply, if_shutdown_apply]
    dsimp only
    have h1 : ([v, cmd.toNat, RESERVED, AddrType.V6.toNat] : List Nat).getD 1 0 =
      cmd.toNat := rfl
    have h3 : ([v, cmd.toNat, RESERVED, AddrType.V6.toNat] : List Nat).getD 3 0 =
      AddrType.V6.toNat := rfl
    rw [h1, h3, sockCommand_fromNat_toNat, addrType_fromNat_toNat]
    dsimp only
    rw [bind_apply, readExact_len _ _ _ haddr]
    dsimp only
    rw [bind_apply, readExact_two]
    dsimp only
    have hp : (([pt / 256, pt % 256] : List Nat).headD 0) <<< 8 |||
        ([pt / 256, pt % 256] : List Nat).getD 1 0 = pt := by
      have : (([pt / 256, pt % 256] : List Nat).headD 0) = pt / 256 := rfl
      rw [this]
      have : (([pt / 256, pt % 256] : List Nat).getD 1 0) = pt % 256 := rfl
      rw [this, port_merge]
    rw [hp]
    exact ⟨rfl, rfl⟩
  | Domain =>
    simp only at haddr
    simp only [List.cons_append, List.append_assoc, List.nil_append]
    rw [bind_apply, readExact_four]
    dsimp only
    rw [bind_apply, if_shutdown_apply]
    dsimp only
    have h1 : ([v, cmd.toNat, RESERVED, AddrType.Domain.toNat] : List Nat).getD 1 0 =
      cmd.toNat := rfl
    have h3 : ([v, cmd.toNat, RESERVED, AddrType.Domain.toNat] : List Nat).getD 3 0 =
      AddrType.Domain.toNat := rfl
    rw [h1, h3, sockCommand_fromNat_toNat, addrType_fromNat_toNat]
    dsimp only
    rw [bind_apply, bind_apply, readExact_one]
    dsimp only
    have hd : (([ad.length] : List Nat).headD 0) = ad.length := rfl
    rw [hd, readExact_len _ _ _ rfl]
    dsimp only
    rw [bind_apply, readExact_two]
    dsimp only
    have hp : (([pt / 256, pt % 256] : List Nat).headD 0) <<< 8 |||
        ([pt / 256, pt % 256] : List Nat).getD 1 0 = pt := by
      have : (([pt / 256, pt % 256] : List Nat).headD 0) = pt / 256 := rfl
      rw [this]
      have : (([pt / 256, pt % 256] : List Nat).getD 1 0) = pt % 256 := rfl
      rw [this, port_merge]
    rw [hp]
    exact ⟨rfl, rfl⟩

/-- Witness for C9_codec_round_trip at a concrete domain-name Connect
request for example.com:443. -/
theorem C9_codec_round_trip_witness :
    (SOCKSReq.from_stream
        ⟨encodeRequest { version := 5, command := SockCommand.Connect,
                         addr_type := AddrType.Domain,
                         addr := [101, 120, 97, 109, 112, 108, 101],
                         port := 443 } ++ [9, 9], [], false⟩).1 =
      Except.ok { version := 5, command := SockCommand.Connect,
                  addr_type := AddrType.Domain,
                  addr := [101, 120, 97, 109, 112, 108, 101], port := 443 } ∧
    (SOCKSReq.from_stream
        ⟨encodeRequest { version := 5, command := SockCommand.Connect,
                         addr_type := AddrType.Domain,
                         addr := [101, 120, 97, 109, 112, 108, 101],
                         port := 443 } ++ [9, 9], [], false⟩).2.input = [9, 9] :=
  C9_codec_round_trip
    { version := 5, command := SockCommand.Connect, addr_type := AddrType.Domain,
      addr := [101, 120, 97, 109, 112, 108, 101], port := 443 }
    [9, 9] [] false (by decide) (by decide)

/-- Claim C10: credentials are compared only after lossy UTF-8 decoding —
the distinct submitted username byte strings 0xFF and 0xFE (both invalid
UTF-8) decode to the same text U+FFFD and both authenticate as the same
configured user; and for every submitted byte pair the subnegotiation
returns Ok with success exactly when the lossily decoded pair is in the
credential set, so no submission is ever rejected for invalid UTF-8 as
such. -/
theorem C10_lossy_decoding_before_credential_check :
    (([0xFF] : List Nat) ≠ [0xFE] ∧
     from_utf8 [0xFF] = none ∧
     from_utf8_lossy [0xFF] = from_utf8_lossy [0xFE] ∧
     SOCKClient.auth [{ username := "�", password := "p" }] [2] 1
         ⟨[2, 1, 1, 0xFF, 1, 112], [], false⟩ =
       (Except.ok (), ⟨[], [5, 2, 1, 0], false⟩) ∧
     SOCKClient.auth [{ username := "�", password := "p" }] [2] 1
         ⟨[2, 1, 1, 0xFE, 1, 112], [], false⟩ =
       (Except.ok (), ⟨[], [5, 2, 1, 0], false⟩)) ∧
    (∀ (users : List User) (u p : List Nat), u.length < 256 → p.length < 256 →
      SOCKClient.auth users [2] 1
          ⟨2 :: 1 :: u.length :: (u ++ p.length :: p), [], false⟩ =
        (Except.ok (),
         ⟨[],
          [5, 2] ++
            (if SOCKClient.authed users
                { username := from_utf8_lossy u, password := from_utf8_lossy p }
             then [1, 0] else [1, 1]),
          if SOCKClient.authed users
              { username := from_utf8_lossy u, password := from_utf8_lossy p }
           then false else true⟩)) := by
  constructor
  · exact ⟨by decide, by decide, by decide, by decide, by decide⟩
  · intro users u p hu hp
    unfold SOCKClient.auth
    rw [bind_apply]
    have hg : SOCKClient.get_avalible_methods [2] 1
        ⟨2 :: 1 :: u.length :: (u ++ p.length :: p), [], false⟩ =
        (Except.ok [2], ⟨1 :: u.length :: (u ++ p.length :: p), [], false⟩) := by
      have h := get_avalible_methods_spec [2] [2]
        (1 :: u.length :: (u ++ p.length :: p)) [] false
      simpa using h
    rw [hg]
    dsimp only
    rw [if_pos (show ([2] : List Nat).contains AuthMethods.UserPass.toNat = true
      by decide)]
    rw [bind_apply, writeAll_open]
    dsimp only
    rw [bind_apply, readExact_two]
    dsimp only
    have hg1 : ([1, u.length] : List Nat).getD 1 0 = u.length := rfl
    rw [hg1, bind_apply, readExact_len _ _ _ rfl]
    dsimp only
    rw [bind_apply, readExact_one]
    dsimp only
    have hh : ([p.length] : List Nat).headD 0 = p.length := rfl
    rw [hh, bind_apply, readExact_whole]
    dsimp only
    by_cases hd : SOCKClient.authed users
      { username := from_utf8_lossy u, password := from_utf8_lossy p } = true
    · rw [if_pos hd, writeAll_open]
      simp [hd, SOCKS_VERSION, AuthMethods.toNat, ResponseCode.toNat]
    · rw [if_neg hd, bind_apply, writeAll_open]
      dsimp only [shutdownStream]
      simp [hd, SOCKS_VERSION, AuthMethods.toNat, ResponseCode.toNat]

/-- Witness for the universally quantified half of
C10_lossy_decoding_before_credential_check at username bytes 0xFF and
password byte 0x70 against an empty-match credential set. -/
theorem C10_lossy_decoding_before_credential_check_witness :
    SOCKClient.auth [{ username := "x", password := "y" }] [2] 1
        ⟨2 :: 1 :: ([0xFF] : List Nat).length ::
          ([0xFF] ++ ([112] : List Nat).length :: [112]), [], false⟩ =
      (Except.ok (),
       ⟨[],
        [5, 2] ++
          (if SOCKClient.authed [{ username := "x", password := "y" }]
              { username := from_utf8_lossy [0xFF],
                password := from_utf8_lossy [112] }
           then [1, 0] else [1, 1]),
        if SOCKClient.authed [{ username := "x", password := "y" }]
            { username := from_utf8_lossy [0xFF],
              password := from_utf8_lossy [112] }
         then false else true⟩) :=
  C10_lossy_decoding_before_credential_check.2
    [{ username := "x", password := "y" }] [0xFF] [112] (by decide) (by decide)

/-- Witness for C8_invalid_domain_fails_before_lookup at the one-byte
domain 0xFF. -/
theorem C8_invalid_domain_fails_before_lookup_witness :
    (∀ r : String → Except IoErrorKind (List IpAddr),
        addr_to_socket AddrType.Domain [255] 80 r =
          Except.error IoErrorKind.InvalidInput) ∧
    ResponseCode.fromMerinoError (MerinoError.Io IoErrorKind.InvalidInput) =
      ResponseCode.Failure ∧
    (SocksReply.new (ResponseCode.fromMerinoError
        (MerinoError.Io IoErrorKind.InvalidInput))).buf =
      [5, 1, 0, 1, 0, 0, 0, 0, 0, 0] :=
  C8_invalid_domain_fails_before_lookup [255] 80 (by decide)

end Socks5
